import Mathlib

/-!
Shallow embedding of the live-quiz hosting core of this repository
(`src/components/quiz/GamePlay.tsx` and `src/components/quiz/CreateQuiz.tsx`),
together with theorems settling the frozen claims about the session
synchronization, tally aggregation, scoring and quiz-editor validation logic.

JavaScript numbers are modelled as `Nat`/`Int`/`ℚ` (all quantities involved are
small integers or exact ratios); a JavaScript plain object used as a string-keyed
counter map is modelled as an association list whose keys stay unique by
construction, with lookup/insert/increment operations mirroring property access;
`undefined`/missing values are modelled with `Option`; the non-finite results of
JavaScript division by zero (`NaN`, `Infinity`) are modelled by a dedicated sum
type.
-/

/-- Result of a JavaScript floating-point expression as far as the summary
aggregator is concerned: a finite (here exact rational) number, `NaN`, or
`Infinity` (the numerators occurring here are non-negative). -/
inductive JSNum where
  | num : ℚ → JSNum
  | nan : JSNum
  | inf : JSNum
deriving DecidableEq

/-- Option row of a question as loaded by `GamePlay.tsx` (`interface Question`,
field `options`). -/
structure AnswerOption where
  id : String
  text : String
  is_correct : Bool
deriving DecidableEq

/-- Question row with its options as loaded by `GamePlay.tsx`
(`interface Question`). `time_limit` is the per-question limit in seconds. -/
structure Question where
  id : String
  text : String
  time_limit : Int
  options : List AnswerOption
deriving DecidableEq

/-- Player entry of the host component state (`interface Player` in
`GamePlay.tsx`): `score` and `totalCompletionTime` are maintained in memory. -/
structure Player where
  id : String
  name : String
  score : Nat
  totalCompletionTime : Nat
deriving DecidableEq

/-- Row of the `game_answers` table as consumed by the host
(`payload.new` of the realtime INSERT subscription, and the rows returned by the
`game_answers` selects): one submitted answer event. -/
structure AnswerRow where
  player_id : String
  question_index : Int
  option_id : String
  is_correct : Bool
  time_taken : Nat
deriving DecidableEq

/-- String-keyed counter object (`{ [key: string]: number }` in the source),
modelled as an association list read through first-match lookup. -/
abbrev Stats : Type := List (String × Nat)

/-- Property read with default, `stats[key] || 0` in the source. -/
def statGet : Stats → String → Nat
  | [], _ => 0
  | (k1, v1) :: rest, k => if k1 == k then v1 else statGet rest k

/-- Property test, `stats.hasOwnProperty(key)` in the source. -/
def statHas : Stats → String → Bool
  | [], _ => false
  | (k1, _) :: rest, k => k1 == k || statHas rest k

/-- Property write `stats[key] = v`: replaces the value of an existing key, or
adds the key. -/
def statSet (st : Stats) (k : String) (v : Nat) : Stats :=
  if statHas st k then st.map (fun p => if p.1 == k then (p.1, v) else p)
  else st ++ [(k, v)]

/-- The guarded increment pattern of the source
(`if (stats.hasOwnProperty(key)) stats[key] = (stats[key] || 0) + 1`):
a key not present in the object is left alone (the source logs a warning). -/
def statBump (st : Stats) (k : String) : Stats :=
  if statHas st k then st.map (fun p => if p.1 == k then (p.1, p.2 + 1) else p)
  else st

/-- Composite per-question/per-option key used by `GamePlay.tsx` for live answer
stats: `` `q${questionIndex}_${option.id}` ``. -/
def uniqueKey (questionIndex : Int) (optionId : String) : String :=
  "q" ++ toString questionIndex ++ "_" ++ optionId

/-- Total of all counter values of a stats object. -/
def statsSum (st : Stats) : Nat := (st.map Prod.snd).sum

/-- Fresh per-question stats object built by `startTimer`/`refreshAnswerStats`:
one zero-valued entry per option of the question, keyed with `uniqueKey`. -/
def freshStats (questionIndex : Int) (q : Question) : Stats :=
  q.options.foldl (fun st o => statSet st (uniqueKey questionIndex o.id) 0) []

/-- Fixed scoring function of `GamePlay.tsx` (`calculateScore`): 100 points for
every correct answer, ignoring the remaining seconds. -/
def calculateScore (secondsLeft : Int) : Nat := 100

/-- Score update performed by the host's realtime INSERT subscription
(`subscribeToAnswers` in `GamePlay.tsx`): on every delivered answer notification
with `is_correct`, the matching player's in-memory score is incremented by
`calculateScore(0)`. -/
def applyRealtimeScoreUpdate (answer : AnswerRow) (players : List Player) :
    List Player :=
  if answer.is_correct then
    players.map (fun p =>
      if p.id == answer.player_id then { p with score := p.score + calculateScore 0 }
      else p)
  else players

/-- In-memory state of the host's `GamePlay` component that the session logic
reads and writes: the loaded question list, the React state fields
(`currentQuestionIndex`, `timeLeft`, `showResults`, `gameEnded`, `answerStats`,
`totalAnswers`), whether the countdown interval is currently scheduled
(`timerRef`), and the `game_sessions` row columns written by this component
(`status`, `current_question_index`). `timeLeft = none` models the JavaScript
`undefined`/`NaN` value. -/
structure HostState where
  questions : List Question
  currentQuestionIndex : Int
  timeLeft : Option Int
  timerArmed : Bool
  showResults : Bool
  gameEnded : Bool
  dbStatus : String
  dbCurrentQuestionIndex : Option Int
  answerStats : Stats
  totalAnswers : Nat
deriving DecidableEq

/-- The `startTimer(questionIndex, seconds)` routine of `GamePlay.tsx`: clears
any existing interval, returns early when `questions[questionIndex]` is
undefined, otherwise initializes fresh zero stats for the question, sets
`timeLeft` to the passed `seconds` (a missing argument is `none`), resets
`showResults`/`totalAnswers`, and schedules the countdown interval. -/
def startTimer (questionIndex : Int) (seconds : Option Int) (s : HostState) :
    HostState :=
  let s0 := { s with timerArmed := false }
  match (if questionIndex < 0 then none else s.questions[questionIndex.toNat]?) with
  | none => s0
  | some q =>
      { s0 with
          timeLeft := seconds
          showResults := false
          answerStats := freshStats questionIndex q
          totalAnswers := 0
          timerArmed := true }

/-- One firing of the countdown interval installed by `startTimer`: decrement
the tracked time, publish it to `timeLeft`, and on reaching zero clear the
interval and show the results view. A `none` (`NaN`) time never reaches the
`<= 0` branch, exactly like `NaN` comparisons in JavaScript. -/
def timerTick (s : HostState) : HostState :=
  if s.timerArmed then
    match s.timeLeft with
    | none => s
    | some t =>
        if t - 1 ≤ 0 then
          { s with timeLeft := some (t - 1), timerArmed := false, showResults := true }
        else { s with timeLeft := some (t - 1) }
  else s

/-- The resume path of `fetchGameData` in `GamePlay.tsx`: when the loaded
session row has a non-null `current_question_index` within range, the source
calls `startTimer(question.time_limit)` — a single argument, so the question's
`time_limit` is passed as the `questionIndex` parameter and `seconds` is
undefined (`none`). -/
def fetchGameDataResume (s : HostState) : HostState :=
  match s.dbCurrentQuestionIndex with
  | none => s
  | some i =>
      let s1 := { s with currentQuestionIndex := i }
      if 0 ≤ i ∧ i < (s.questions.length : Int) then
        match s.questions[i.toNat]? with
        | some q => startTimer q.time_limit none s1
        | none => s1
      else s1

/-- The `nextQuestion` handler of `GamePlay.tsx` (the host's `advance` command):
unconditionally computes `nextIndex = currentQuestionIndex + 1`; if it reaches
the question count the session row is marked completed (null index) and the
game-over view shown, otherwise the session row and component index move to
`nextIndex` and the timer is started with that question's time limit. No state
check precedes either branch and no error is ever reported. The inner `none`
case is unreachable for the component's reachable states (`nextIndex ≥ 0`);
in JavaScript a negative index would throw on `questions[nextIndex].time_limit`. -/
def nextQuestion (s : HostState) : HostState :=
  let nextIndex := s.currentQuestionIndex + 1
  if (s.questions.length : Int) ≤ nextIndex then
    { s with
        timerArmed := false
        dbStatus := "completed"
        dbCurrentQuestionIndex := none
        gameEnded := true }
  else
    let s1 : HostState :=
      { s with
          timerArmed := false
          dbCurrentQuestionIndex := some nextIndex
          showResults := false
          timeLeft := some 0
          currentQuestionIndex := nextIndex }
    match (if nextIndex < 0 then none else s.questions[nextIndex.toNat]?) with
    | none => s1
    | some q => startTimer nextIndex (some q.time_limit) s1

/-- Derived tally for one question: per-option counters plus the total number
of fetched answer rows (`refreshAnswerStats` keeps them in `answerStats` and
`totalAnswers`). -/
structure Tally where
  counts : Stats
  total : Nat
deriving DecidableEq

/-- The `refreshAnswerStats(questionIndex)` routine of `GamePlay.tsx`: returns
early (no update, modelled as `none`) for a negative or out-of-range index;
otherwise fetches the session's `game_answers` rows with this `question_index`,
initializes one zero counter per option of the question under its `uniqueKey`,
increments a counter only when its key exists (foreign `option_id`s only log a
warning), and reports `total` as the number of fetched rows. `rows` is the full
`game_answers` set of the session; the `.eq("question_index", ...)` clause of
the query is the filter below. -/
def refreshAnswerStats (questions : List Question) (questionIndex : Int)
    (rows : List AnswerRow) : Option Tally :=
  match (if questionIndex < 0 then none else questions[questionIndex.toNat]?) with
  | none => none
  | some q =>
      let scopedRows := rows.filter (fun r => r.question_index == questionIndex)
      let stats := scopedRows.foldl
        (fun st r => statBump st (uniqueKey questionIndex r.option_id))
        (freshStats questionIndex q)
      some { counts := stats, total := scopedRows.length }

/-- The `answer_submitted` broadcast handler of `subscribeToAnswers` in
`GamePlay.tsx`: when the event's `question_index` equals the current one, the
matching option counter is incremented (if its key is known) and
`totalAnswers` is incremented unconditionally; a stale `question_index` is
ignored. -/
def handleAnswerBroadcast (payloadQuestionIndex : Int) (payloadOptionId : String)
    (s : HostState) : HostState :=
  if payloadQuestionIndex == s.currentQuestionIndex then
    { s with
        answerStats :=
          statBump s.answerStats (uniqueKey payloadQuestionIndex payloadOptionId)
        totalAnswers := s.totalAnswers + 1 }
  else s

/-- Percentage shown for an option on the results screen of `GamePlay.tsx`:
`totalAnswers > 0 ? Math.round((answerCount / totalAnswers) * 100) : 0`,
with exact rational arithmetic in place of floating point and `round` for
`Math.round` (both are floor of `x + 1/2` for the non-negative values that
occur here). -/
def displayPercentage (answerCount totalAnswers : Nat) : Int :=
  if 0 < totalAnswers then round (((answerCount : ℚ) / (totalAnswers : ℚ)) * 100)
  else 0

/-- Leaderboard comparator of `GamePlay.tsx` (used by the game-over screen and
the mid-game leaderboard): the sort comparator returns `b.score - a.score` when
scores differ and `a.totalCompletionTime - b.totalCompletionTime` otherwise, so
`a` may be placed before `b` exactly when this relation holds. -/
def leaderboardLE (a b : Player) : Bool :=
  if a.score != b.score then decide (b.score < a.score)
  else decide (a.totalCompletionTime ≤ b.totalCompletionTime)

/-- The game-over screen's `sortedPlayers`: the player list sorted with the
leaderboard comparator by the (stable) `Array.prototype.sort`. -/
def finalLeaderboard (ps : List Player) : List Player :=
  ps.mergeSort leaderboardLE

/-- The mid-game leaderboard rendered while per-question results are shown:
the same stable sort followed by `.slice(0, 5)`. -/
def midGameLeaderboard (ps : List Player) : List Player :=
  (ps.mergeSort leaderboardLE).take 5

/-- The accumulation object of `calculatePlayerCompletionTimes` in
`GamePlay.tsx`: for every fetched answer row, the player's entry is initialized
to 0 when absent and then incremented by `time_taken`. -/
def playerCompletionTimes (rows : List AnswerRow) : Stats :=
  rows.foldl
    (fun acc r => statSet acc r.player_id (statGet acc r.player_id + r.time_taken))
    []

/-- The player-state update of `calculatePlayerCompletionTimes`: every player's
`totalCompletionTime` becomes their accumulated sum (`|| 0` when absent). -/
def calculatePlayerCompletionTimes (rows : List AnswerRow) (players : List Player) :
    List Player :=
  players.map (fun p =>
    { p with totalCompletionTime := statGet (playerCompletionTimes rows) p.id })

/-- JavaScript division: division by zero produces `NaN` for a zero numerator
and `Infinity` for a positive one. -/
def jsDiv (a b : ℚ) : JSNum :=
  if b = 0 then (if a = 0 then JSNum.nan else JSNum.inf) else JSNum.num (a / b)

/-- Multiplication by 100 lifted to `JSNum` (`NaN`/`Infinity` are absorbing). -/
def jsMul100 : JSNum → JSNum
  | JSNum.num q => JSNum.num (q * 100)
  | v => v

/-- `Math.round` lifted to `JSNum` (`Math.round(NaN)` is `NaN`,
`Math.round(Infinity)` is `Infinity`). -/
def jsRound : JSNum → JSNum
  | JSNum.num q => JSNum.num ((round q : ℤ) : ℚ)
  | v => v

/-- The participation rate of `fetchSummaryData` in `GamePlay.tsx`:
`Math.round((totalAnswers / (totalQuestions * totalPlayers)) * 100)`, with no
guard on the denominator. -/
def participationRate (totalAnswers totalQuestions totalPlayers : Nat) : JSNum :=
  jsRound (jsMul100 (jsDiv (totalAnswers : ℚ) ((totalQuestions * totalPlayers : Nat) : ℚ)))

/-- The overall accuracy of `fetchSummaryData`:
`totalAnswers > 0 ? (correctAnswers / totalAnswers) * 100 : 0` — this one is
guarded. -/
def overallAccuracy (correctAnswers totalAnswers : Nat) : ℚ :=
  if 0 < totalAnswers then ((correctAnswers : ℚ) / (totalAnswers : ℚ)) * 100 else 0

/-- JavaScript `String.prototype.trim`, modelled executably: strip leading and
trailing whitespace characters. -/
def jsTrim (s : String) : String :=
  String.mk
    (((s.toList.dropWhile Char.isWhitespace).reverse.dropWhile
        Char.isWhitespace).reverse)

/-- Option of the quiz editor (`interface Option` in `CreateQuiz.tsx`). -/
structure EditorOption where
  id : String
  text : String
  isCorrect : Bool
deriving DecidableEq

/-- Question of the quiz editor (`interface Question` in `CreateQuiz.tsx`). -/
structure EditorQuestion where
  id : String
  text : String
  timeLimit : Int
  options : List EditorOption
deriving DecidableEq

/-- Quiz being edited (`QuizData` state of `CreateQuiz.tsx`). -/
structure QuizData where
  title : String
  description : String
  questions : List EditorQuestion
deriving DecidableEq

/-- The `setCorrectOption(questionId, optionId)` handler of `CreateQuiz.tsx`:
in the addressed question, every option's `isCorrect` becomes
`option.id === optionId`; other questions are untouched. -/
def setCorrectOption (questionId optionId : String) (qd : QuizData) : QuizData :=
  { qd with
      questions := qd.questions.map (fun q =>
        if q.id == questionId then
          { q with
              options := q.options.map (fun o =>
                { o with isCorrect := o.id == optionId }) }
        else q) }

/-- Per-question checks of `validateQuiz` in `CreateQuiz.tsx`, in source order:
non-empty text, time limit in `[5, 120]`, at least two options, no empty
option text, and at least one correct option (`correctOptions.length === 0`
is the only correctness check). -/
def validQuestion (q : EditorQuestion) : Bool :=
  jsTrim q.text != "" &&
  !(q.timeLimit < 5 || 120 < q.timeLimit) &&
  !(q.options.length < 2) &&
  ((q.options.filter (fun o => jsTrim o.text == "")).length == 0) &&
  !((q.options.filter (fun o => o.isCorrect)).length == 0)

/-- The `validateQuiz` function of `CreateQuiz.tsx`: true exactly when the
title is non-empty, at least one question exists, and every question passes
`validQuestion`; `saveQuiz` proceeds only when this returns true. -/
def validateQuiz (qd : QuizData) : Bool :=
  jsTrim qd.title != "" && qd.questions.length != 0 && qd.questions.all validQuestion

/-- Editor question fixture with no correct option (used for the validation
theorems). -/
def zeroCorrectQuestion : EditorQuestion :=
  { id := "q1"
    text := "Which?"
    timeLimit := 30
    options := [{ id := "a", text := "A", isCorrect := false },
                { id := "b", text := "B", isCorrect := false }] }

/-- Quiz fixture whose only question has no correct option. -/
def zeroCorrectQuiz : QuizData :=
  { title := "T", description := "", questions := [zeroCorrectQuestion] }

/-- The question of `zeroCorrectQuiz` after the editor selects option `b`. -/
def correctedQuestion : EditorQuestion :=
  { id := "q1"
    text := "Which?"
    timeLimit := 30
    options := [{ id := "a", text := "A", isCorrect := false },
                { id := "b", text := "B", isCorrect := true }] }

/-- Quiz fixture whose only question marks two options correct. -/
def twoCorrectQuiz : QuizData :=
  { title := "T"
    description := ""
    questions := [{ id := "q1"
                    text := "Which?"
                    timeLimit := 30
                    options := [{ id := "a", text := "A", isCorrect := true },
                                { id := "b", text := "B", isCorrect := true }] }] }

/-- Question fixture with a 30-second limit. -/
def timedQuestion : Question :=
  { id := "q"
    text := "T"
    time_limit := 30
    options := [{ id := "a", text := "A", is_correct := true },
                { id := "b", text := "B", is_correct := false }] }

/-- Host state as rebuilt after a process restart while question 0 of a
one-question quiz is active: fresh component state (`timeLeft` 0, no timer)
with the persisted session row pointing at question 0. -/
def restartState : HostState :=
  { questions := [timedQuestion]
    currentQuestionIndex := -1
    timeLeft := some 0
    timerArmed := false
    showResults := false
    gameEnded := false
    dbStatus := "active"
    dbCurrentQuestionIndex := some 0
    answerStats := []
    totalAnswers := 0 }

/-- Question fixtures for a three-question session. -/
def questionOne : Question :=
  { id := "q1", text := "one", time_limit := 10
    options := [{ id := "o1", text := "x", is_correct := true },
                { id := "o2", text := "y", is_correct := false }] }

/-- Second question fixture. -/
def questionTwo : Question :=
  { id := "q2", text := "two", time_limit := 10
    options := [{ id := "o3", text := "x", is_correct := true },
                { id := "o4", text := "y", is_correct := false }] }

/-- Third question fixture. -/
def questionThree : Question :=
  { id := "q3", text := "three", time_limit := 10
    options := [{ id := "o5", text := "x", is_correct := true },
                { id := "o6", text := "y", is_correct := false }] }

/-- Host state fixture: three-question session, question 0 closed (results
showing), ready for the host to advance. -/
def threeQuestionState : HostState :=
  { questions := [questionOne, questionTwo, questionThree]
    currentQuestionIndex := 0
    timeLeft := some 0
    timerArmed := false
    showResults := true
    gameEnded := false
    dbStatus := "active"
    dbCurrentQuestionIndex := some 0
    answerStats := []
    totalAnswers := 0 }

/-- Host state fixture: question 0 of the three-question session is live with
one known option key and no answers counted yet. -/
def liveTallyState : HostState :=
  { questions := [questionOne, questionTwo, questionThree]
    currentQuestionIndex := 0
    timeLeft := some 10
    timerArmed := true
    showResults := false
    gameEnded := false
    dbStatus := "active"
    dbCurrentQuestionIndex := some 0
    answerStats := [("q0_o1", 0), ("q0_o2", 0)]
    totalAnswers := 0 }

/-- Answer row fixture: player `p1` answers question 0 with its option `o1`. -/
def answerRowO1 : AnswerRow :=
  { player_id := "p1", question_index := 0, option_id := "o1",
    is_correct := true, time_taken := 5 }

/-- Answer row fixture whose `option_id` belongs to no option of question 0. -/
def foreignRow : AnswerRow :=
  { player_id := "p1", question_index := 0, option_id := "zzz",
    is_correct := false, time_taken := 1 }

/-- Player fixture tied with `tiedBob` on score and completion time. -/
def tiedAnn : Player :=
  { id := "p1", name := "Ann", score := 100, totalCompletionTime := 7 }

/-- Player fixture tied with `tiedAnn` on score and completion time. -/
def tiedBob : Player :=
  { id := "p2", name := "Bob", score := 100, totalCompletionTime := 7 }

/-- Answer rows of player `p1` summing to 7 seconds of completion time. -/
def completionRows : List AnswerRow :=
  [{ player_id := "p1", question_index := 0, option_id := "o1",
     is_correct := true, time_taken := 3 },
   { player_id := "p1", question_index := 1, option_id := "o3",
     is_correct := false, time_taken := 4 }]

theorem stringBeq_symm (a b : String) : (a == b) = (b == a) := by
  by_cases h : a = b
  · subst h; rfl
  · have h1 : (a == b) = false := by
      simpa using h
    have h2 : (b == a) = false := by
      simpa using Ne.symm h
    rw [h1, h2]

theorem statHas_iff_mem (st : Stats) (k : String) :
    statHas st k = true ↔ k ∈ st.map Prod.fst := by
  induction st with
  | nil => simp [statHas]
  | cons p rest ih =>
    cases p with
    | mk k1 v1 =>
      simp only [statHas, Bool.or_eq_true, beq_iff_eq, ih, List.map_cons,
        List.mem_cons]
      constructor
      · rintro (h | h)
        · exact Or.inl h.symm
        · exact Or.inr h
      · rintro (h | h)
        · exact Or.inl h.symm
        · exact Or.inr h

theorem statHas_congr_keys (st1 st2 : Stats) (k : String)
    (h : st1.map Prod.fst = st2.map Prod.fst) : statHas st1 k = statHas st2 k := by
  have h1 := statHas_iff_mem st1 k
  have h2 := statHas_iff_mem st2 k
  rw [h] at h1
  exact Bool.eq_iff_iff.mpr (h1.trans h2.symm)

theorem keys_map_replace (st : Stats) (k : String) (f : Nat → Nat) :
    (st.map (fun p => if p.1 == k then (p.1, f p.2) else p)).map Prod.fst
      = st.map Prod.fst := by
  rw [List.map_map]
  apply List.map_congr_left
  intro p _
  by_cases h : p.1 = k <;> simp [h]

theorem keys_statBump (st : Stats) (k : String) :
    (statBump st k).map Prod.fst = st.map Prod.fst := by
  unfold statBump
  split
  · exact keys_map_replace st k (fun v => v + 1)
  · rfl

theorem statHas_statBump (st : Stats) (k x : String) :
    statHas (statBump st k) x = statHas st x :=
  statHas_congr_keys _ _ _ (keys_statBump st k)

theorem keys_statSet (st : Stats) (k : String) (v : Nat) :
    (statSet st k v).map Prod.fst =
      (if statHas st k then st.map Prod.fst else st.map Prod.fst ++ [k]) := by
  unfold statSet
  split
  · exact keys_map_replace st k (fun _ => v)
  · simp

theorem statHas_statSet (st : Stats) (k x : String) (v : Nat) :
    statHas (statSet st k v) x = (statHas st x || (x == k)) := by
  have hmem1 := statHas_iff_mem (statSet st k v) x
  have hmem2 := statHas_iff_mem st x
  rw [keys_statSet st k v] at hmem1
  apply Bool.eq_iff_iff.mpr
  rw [hmem1, Bool.or_eq_true, hmem2, beq_iff_eq]
  by_cases hk : statHas st k = true
  · rw [if_pos hk]
    constructor
    · exact Or.inl
    · rintro (h | h)
      · exact h
      · subst h
        exact (statHas_iff_mem st x).mp hk
  · rw [if_neg hk]
    simp only [List.mem_append, List.mem_singleton]

theorem statGet_eq_zero_of_not_has (st : Stats) (x : String)
    (h : statHas st x = false) : statGet st x = 0 := by
  induction st with
  | nil => rfl
  | cons p rest ih =>
    cases p with
    | mk k1 v1 =>
      simp only [statHas, Bool.or_eq_false_iff] at h
      simp only [statGet, h.1, if_false]
      exact ih h.2

theorem mapSet_cons (k1 : String) (v1 : Nat) (rest : Stats) (k : String) (v : Nat) :
    ((k1, v1) :: rest).map (fun p => if p.1 == k then (p.1, v) else p)
      = (if k1 == k then (k1, v) else (k1, v1))
        :: rest.map (fun p => if p.1 == k then (p.1, v) else p) := rfl

theorem mapBump_cons (k1 : String) (v1 : Nat) (rest : Stats) (k : String) :
    ((k1, v1) :: rest).map (fun p => if p.1 == k then (p.1, p.2 + 1) else p)
      = (if k1 == k then (k1, v1 + 1) else (k1, v1))
        :: rest.map (fun p => if p.1 == k then (p.1, p.2 + 1) else p) := rfl

theorem statGet_mapSet (st : Stats) (k x : String) (v : Nat) :
    statGet (st.map (fun p => if p.1 == k then (p.1, v) else p)) x
      = if (x == k) && statHas st k then v else statGet st x := by
  induction st with
  | nil => simp [statGet, statHas]
  | cons p rest ih =>
    cases p with
    | mk k1 v1 =>
      rw [mapSet_cons]
      cases hb : k1 == k
      · rw [if_neg (show ¬(false = true) from by simp)]
        simp only [statGet]
        rw [ih]
        cases hb2 : k1 == x
        · simp [statHas, statGet, hb, hb2]
        · have h2 := beq_iff_eq.mp hb2
          subst h2
          simp [statHas, statGet, hb]
      · rw [if_pos (show (true = true) from rfl)]
        have h1 := beq_iff_eq.mp hb
        subst h1
        simp only [statGet]
        rw [ih]
        cases hb2 : k1 == x
        · have hxk : (x == k1) = false := by
            rw [stringBeq_symm]
            exact hb2
          simp [statHas, statGet, hb2, hxk]
        · have h2 := beq_iff_eq.mp hb2
          subst h2
          simp [statHas, statGet]

theorem statGet_mapBump (st : Stats) (k x : String) :
    statGet (st.map (fun p => if p.1 == k then (p.1, p.2 + 1) else p)) x
      = if (x == k) && statHas st k then statGet st x + 1 else statGet st x := by
  induction st with
  | nil => simp [statGet, statHas]
  | cons p rest ih =>
    cases p with
    | mk k1 v1 =>
      rw [mapBump_cons]
      cases hb : k1 == k
      · rw [if_neg (show ¬(false = true) from by simp)]
        simp only [statGet]
        rw [ih]
        cases hb2 : k1 == x
        · simp [statHas, statGet, hb, hb2]
        · have h2 := beq_iff_eq.mp hb2
          subst h2
          simp [statHas, statGet, hb]
      · rw [if_pos (show (true = true) from rfl)]
        have h1 := beq_iff_eq.mp hb
        subst h1
        simp only [statGet]
        rw [ih]
        cases hb2 : k1 == x
        · have hxk : (x == k1) = false := by
            rw [stringBeq_symm]
            exact hb2
          simp [statHas, statGet, hb2, hxk]
        · have h2 := beq_iff_eq.mp hb2
          subst h2
          simp [statHas, statGet]

theorem statGet_append_single (st : Stats) (k x : String) (v : Nat) :
    statGet (st ++ [(k, v)]) x
      = if statHas st x then statGet st x else (if x == k then v else 0) := by
  induction st with
  | nil => simp [statGet, statHas, stringBeq_symm]
  | cons p rest ih =>
    cases p with
    | mk k1 v1 =>
      by_cases h2 : k1 = x <;> simp [statGet, statHas, h2, ih]

theorem statGet_statSet (st : Stats) (k x : String) (v : Nat) :
    statGet (statSet st k v) x = if x == k then v else statGet st x := by
  unfold statSet
  split
  · rename_i h
    rw [statGet_mapSet, h, Bool.and_true]
  · rename_i h
    rw [statGet_append_single]
    by_cases hx : statHas st x = true
    · have hxk : ¬x = k := by
        intro hh
        subst hh
        rw [hx] at h
        exact h rfl
      simp [hx, hxk]
    · have hx0 : statHas st x = false := by
        revert hx
        cases statHas st x <;> simp
      rw [if_neg (show ¬(statHas st x = true) from by simp [hx0]),
        statGet_eq_zero_of_not_has st x hx0]

theorem statGet_statBump (st : Stats) (k x : String) :
    statGet (statBump st k) x
      = if (x == k) && statHas st k then statGet st x + 1 else statGet st x := by
  unfold statBump
  split
  · rename_i h
    rw [statGet_mapBump, h]
  · rename_i h
    have h0 : statHas st k = false := by
      revert h
      cases statHas st k <;> simp
    rw [h0, Bool.and_false, if_neg (show ¬(false = true) from by simp)]

theorem statsSum_cons (a : String) (b : Nat) (l : Stats) :
    statsSum ((a, b) :: l) = b + statsSum l := by
  simp [statsSum]

theorem statsSum_mapBump (st : Stats) (k : String) :
    statsSum (st.map (fun p => if p.1 == k then (p.1, p.2 + 1) else p))
      = statsSum st + st.countP (fun p => p.1 == k) := by
  induction st with
  | nil => simp [statsSum]
  | cons p rest ih =>
    cases p with
    | mk k1 v1 =>
      rw [mapBump_cons]
      cases hb : k1 == k
      · rw [if_neg (show ¬(false = true) from by simp), statsSum_cons, ih,
          statsSum_cons]
        have hc : List.countP (fun p => p.1 == k) ((k1, v1) :: rest)
            = List.countP (fun p => p.1 == k) rest := by
          simp [List.countP_cons, hb]
        rw [hc]
        omega
      · rw [if_pos (show (true = true) from rfl), statsSum_cons, ih,
          statsSum_cons]
        have hc : List.countP (fun p => p.1 == k) ((k1, v1) :: rest)
            = List.countP (fun p => p.1 == k) rest + 1 := by
          simp [List.countP_cons, hb]
        rw [hc]
        omega

theorem countKey_eq_one (st : Stats) (k : String)
    (hnd : (st.map Prod.fst).Nodup) (h : statHas st k = true) :
    st.countP (fun p => p.1 == k) = 1 := by
  induction st with
  | nil => simp [statHas] at h
  | cons p rest ih =>
    cases p with
    | mk k1 v1 =>
      rw [List.map_cons, List.nodup_cons] at hnd
      cases hb : k1 == k
      · have hrest : statHas rest k = true := by
          simpa [statHas, hb] using h
        have hc : List.countP (fun p => p.1 == k) ((k1, v1) :: rest)
            = List.countP (fun p => p.1 == k) rest := by
          simp [List.countP_cons, hb]
        rw [hc]
        exact ih hnd.2 hrest
      · have hk : k1 = k := beq_iff_eq.mp hb
        subst hk
        have hzero : rest.countP (fun p => p.1 == k1) = 0 := by
          rw [List.countP_eq_zero]
          intro a ha hf
          have h1 : a.1 ∈ rest.map Prod.fst := List.mem_map_of_mem Prod.fst ha
          rw [beq_iff_eq.mp hf] at h1
          exact hnd.1 h1
        simp [List.countP_cons, hzero]

theorem statsSum_statBump (st : Stats) (k : String)
    (hnd : (st.map Prod.fst).Nodup) :
    statsSum (statBump st k)
      = statsSum st + (if statHas st k then 1 else 0) := by
  unfold statBump
  split
  · rename_i h
    rw [statsSum_mapBump, countKey_eq_one st k hnd h]
  · simp

theorem keys_foldBump {α : Type} (rows : List α) (keyf : α → String) (st : Stats) :
    ((rows.foldl (fun acc r => statBump acc (keyf r)) st).map Prod.fst)
      = st.map Prod.fst := by
  induction rows generalizing st with
  | nil => rfl
  | cons r rows ih =>
    rw [List.foldl_cons, ih, keys_statBump]

theorem statsSum_foldBump {α : Type} (rows : List α) (keyf : α → String)
    (st : Stats) (hnd : (st.map Prod.fst).Nodup) :
    statsSum (rows.foldl (fun acc r => statBump acc (keyf r)) st)
      = statsSum st + rows.countP (fun r => statHas st (keyf r)) := by
  induction rows generalizing st with
  | nil => simp
  | cons r rows ih =>
    rw [List.foldl_cons]
    have hnd1 : ((statBump st (keyf r)).map Prod.fst).Nodup := by
      rw [keys_statBump]
      exact hnd
    rw [ih (statBump st (keyf r)) hnd1]
    have hcong : rows.countP (fun x => statHas (statBump st (keyf r)) (keyf x))
        = rows.countP (fun x => statHas st (keyf x)) := by
      apply List.countP_congr
      intro a _
      rw [statHas_statBump]
    rw [hcong, statsSum_statBump st (keyf r) hnd, List.countP_cons]
    cases hh : statHas st (keyf r) <;> simp [hh] <;> omega

theorem statHas_foldSet (opts : List AnswerOption) (questionIndex : Int)
    (st : Stats) (x : String) :
    statHas (opts.foldl (fun acc o => statSet acc (uniqueKey questionIndex o.id) 0) st) x
      = (statHas st x || opts.any (fun o => x == uniqueKey questionIndex o.id)) := by
  induction opts generalizing st with
  | nil => simp
  | cons o opts ih =>
    rw [List.foldl_cons, ih, statHas_statSet, List.any_cons, Bool.or_assoc]

theorem nodupKeys_statSet (st : Stats) (k : String) (v : Nat)
    (hnd : (st.map Prod.fst).Nodup) : ((statSet st k v).map Prod.fst).Nodup := by
  rw [keys_statSet]
  split
  · exact hnd
  · rename_i h
    have hk : k ∉ st.map Prod.fst := by
      intro hm
      rw [(statHas_iff_mem st k).mpr hm] at h
      exact h rfl
    simp [List.nodup_append, hnd, hk]

theorem nodupKeys_foldSet (opts : List AnswerOption) (questionIndex : Int)
    (st : Stats) (hnd : (st.map Prod.fst).Nodup) :
    (((opts.foldl (fun acc o => statSet acc (uniqueKey questionIndex o.id) 0) st)).map
      Prod.fst).Nodup := by
  induction opts generalizing st with
  | nil => exact hnd
  | cons o opts ih =>
    rw [List.foldl_cons]
    exact ih _ (nodupKeys_statSet _ _ _ hnd)

theorem nodupKeys_freshStats (questionIndex : Int) (q : Question) :
    ((freshStats questionIndex q).map Prod.fst).Nodup :=
  nodupKeys_foldSet q.options questionIndex [] (by simp)

theorem statHas_freshStats (questionIndex : Int) (q : Question) (x : String) :
    statHas (freshStats questionIndex q) x
      = q.options.any (fun o => x == uniqueKey questionIndex o.id) := by
  unfold freshStats
  rw [statHas_foldSet]
  simp [statHas]

theorem zeroVals_statSet (st : Stats) (k : String)
    (h0 : ∀ p ∈ st, p.2 = 0) : ∀ p ∈ statSet st k 0, p.2 = 0 := by
  unfold statSet
  split
  · intro p hp
    rw [List.mem_map] at hp
    obtain ⟨p0, hp0, hval⟩ := hp
    by_cases hh : p0.1 = k
    · rw [← hval]
      simp [hh]
    · rw [← hval]
      have hb : (p0.1 == k) = false := by simpa using hh
      rw [hb, if_neg (show ¬(false = true) from by simp)]
      exact h0 p0 hp0
  · intro p hp
    rw [List.mem_append] at hp
    cases hp with
    | inl hmem => exact h0 p hmem
    | inr hmem =>
      rw [List.mem_singleton] at hmem
      rw [hmem]

theorem zeroVals_foldSet (opts : List AnswerOption) (questionIndex : Int)
    (st : Stats) (h0 : ∀ p ∈ st, p.2 = 0) :
    ∀ p ∈ opts.foldl (fun acc o => statSet acc (uniqueKey questionIndex o.id) 0) st,
      p.2 = 0 := by
  induction opts generalizing st with
  | nil => exact h0
  | cons o opts ih =>
    rw [List.foldl_cons]
    exact ih _ (zeroVals_statSet _ _ h0)

theorem zeroVals_freshStats (questionIndex : Int) (q : Question) :
    ∀ p ∈ freshStats questionIndex q, p.2 = 0 :=
  zeroVals_foldSet q.options questionIndex [] (by simp)

theorem statsSum_eq_zero_of_zeroVals (st : Stats) (h0 : ∀ p ∈ st, p.2 = 0) :
    statsSum st = 0 := by
  unfold statsSum
  apply List.sum_eq_zero
  intro x hx
  rw [List.mem_map] at hx
  obtain ⟨p, hp, hval⟩ := hx
  rw [← hval]
  exact h0 p hp

theorem statGet_eq_zero_of_zeroVals (st : Stats) (x : String)
    (h0 : ∀ p ∈ st, p.2 = 0) : statGet st x = 0 := by
  induction st with
  | nil => rfl
  | cons p rest ih =>
    cases p with
    | mk k1 v1 =>
      simp only [statGet]
      split
      · exact h0 (k1, v1) (List.mem_cons_self _ _)
      · exact ih (fun p hp => h0 p (List.mem_cons_of_mem _ hp))

/-- C1 (amended): player scores are maintained incrementally by the realtime
notification path, not recomputed from the answer log: every delivered answer
notification with `is_correct = true` adds exactly 100 (the fixed
`calculateScore` value) to the score of each player whose id matches the
notification's `player_id` and leaves every other player's score and all ids
unchanged; consequently a duplicated delivery of the same notification adds
another 100, for 200 in total. -/
theorem c1_realtime_score_increment (a : AnswerRow) (ps : List Player) :
    ((applyRealtimeScoreUpdate a ps).map (fun p => (p.id, p.score))
        = ps.map (fun p =>
            (p.id, if a.is_correct && (p.id == a.player_id) then p.score + 100
              else p.score)))
    ∧ ((applyRealtimeScoreUpdate a (applyRealtimeScoreUpdate a ps)).map
          (fun p => (p.id, p.score))
        = ps.map (fun p =>
            (p.id, if a.is_correct && (p.id == a.player_id) then p.score + 200
              else p.score))) := by
  cases hc : a.is_correct
  · constructor
    · simp [applyRealtimeScoreUpdate, hc]
    · simp [applyRealtimeScoreUpdate, hc]
  · constructor
    · simp only [applyRealtimeScoreUpdate, hc, if_pos, List.map_map,
        Bool.true_and, calculateScore]
      apply List.map_congr_left
      intro p _
      cases hb : p.id == a.player_id
      · have hne : ¬p.id = a.player_id := by simpa using hb
        simp [hne]
      · have heq : p.id = a.player_id := beq_iff_eq.mp hb
        simp [heq]
    · simp only [applyRealtimeScoreUpdate, hc, if_pos, List.map_map,
        Bool.true_and, calculateScore]
      apply List.map_congr_left
      intro p _
      cases hb : p.id == a.player_id
      · have hne : ¬p.id = a.player_id := by simpa using hb
        simp [hne]
      · have heq : p.id = a.player_id := beq_iff_eq.mp hb
        simp [heq]

/-- C1 counterexample: the claim that scores are never incremented from the
transient realtime notification path — so that duplicated or replayed
notifications cannot change any player's score — is false: delivering the same
correct-answer notification twice for the single accepted event of player
`p1` yields score 200, while one delivery (and the event log) yields 100. -/
theorem c1_counterexample :
    (applyRealtimeScoreUpdate ⟨"p1", 0, "optA", true, 3⟩
        [⟨"p1", "Ann", 0, 0⟩]).map Player.score = [100]
    ∧ (applyRealtimeScoreUpdate ⟨"p1", 0, "optA", true, 3⟩
        (applyRealtimeScoreUpdate ⟨"p1", 0, "optA", true, 3⟩
          [⟨"p1", "Ann", 0, 0⟩])).map Player.score = [200]
    ∧ (200 : Nat) ≠ 100 :=
  ⟨rfl, rfl, by decide⟩

/-- C8 (amended): the summary aggregator's accuracy percentages guard their
zero denominators (`overallAccuracy` reports 0 for zero accepted answers), but
the participation rate does not: whenever `questions × players = 0` it divides
by zero, producing `NaN` (for zero accepted answers) or `Infinity` (for a
positive count) — in either case not the number 0. -/
theorem c8_zero_denominator_behavior :
    (∀ c : Nat, overallAccuracy c 0 = 0)
    ∧ (∀ a tq tp : Nat, tq * tp = 0 →
        participationRate a tq tp = (if a = 0 then JSNum.nan else JSNum.inf))
    ∧ (∀ a tq tp : Nat, tq * tp = 0 → participationRate a tq tp ≠ JSNum.num 0) := by
  have key : ∀ a tq tp : Nat, tq * tp = 0 →
      participationRate a tq tp = (if a = 0 then JSNum.nan else JSNum.inf) := by
    intro a tq tp h
    have hq : ((tq * tp : Nat) : ℚ) = 0 := by exact_mod_cast h
    unfold participationRate jsDiv
    rw [hq, if_pos rfl]
    by_cases ha : a = 0
    · have hqa : ((a : Nat) : ℚ) = 0 := by exact_mod_cast ha
      rw [if_pos hqa, if_pos ha]
      rfl
    · have hqa : ¬((a : Nat) : ℚ) = 0 := by exact_mod_cast ha
      rw [if_neg hqa, if_neg ha]
      rfl
  refine ⟨?_, key, ?_⟩
  · intro c
    simp [overallAccuracy]
  · intro a tq tp h
    rw [key a tq tp h]
    by_cases ha : a = 0
    · rw [if_pos ha]
      intro hcontra
      exact JSNum.noConfusion hcontra
    · rw [if_neg ha]
      intro hcontra
      exact JSNum.noConfusion hcontra

/-- C8 witness: instantiating the amended statement — a guarded accuracy with
zero answers reports 0; the participation rate of a session with four
questions and zero players is `Infinity` (two accepted rows), not 0. -/
theorem c8_witness :
    overallAccuracy 3 0 = 0
    ∧ participationRate 2 4 0 = JSNum.inf
    ∧ participationRate 2 4 0 ≠ JSNum.num 0 := by
  refine ⟨c8_zero_denominator_behavior.1 3, ?_,
    c8_zero_denominator_behavior.2.2 2 4 0 (by decide)⟩
  rw [c8_zero_denominator_behavior.2.1 2 4 0 (by decide)]
  norm_num

/-- C8 counterexample: the claim that the participation rate reports 0 and
does not fault for a session with zero players is false — with zero players
(and hence zero accepted answers) the unguarded division yields `NaN`, not 0. -/
theorem c8_counterexample :
    participationRate 0 5 0 = JSNum.nan ∧ JSNum.nan ≠ JSNum.num 0 := by
  constructor
  · have h : (5 : Nat) * 0 = 0 := by decide
    have hq : (((5 * 0 : Nat)) : ℚ) = 0 := by exact_mod_cast h
    unfold participationRate jsDiv
    rw [hq, if_pos rfl, if_pos rfl]
    rfl
  · intro hcontra
    exact JSNum.noConfusion hcontra

/-- C9 (amended): `setCorrectOption` makes exactly those options whose id
equals the chosen id correct — in the addressed question an option is correct
afterwards iff its id is the chosen one (hence exactly one option is correct
whenever the chosen id occurs exactly once among the question's options), and
every other question is untouched. Validation rejects a quiz in which some
question has zero correct options, but it does not reject more than one
correct option. -/
theorem c9_correct_option_invariant :
    (∀ (qd : QuizData) (qid oid : String) (q1 : EditorQuestion),
        q1 ∈ (setCorrectOption qid oid qd).questions → q1.id = qid →
        ∀ o ∈ q1.options, o.isCorrect = (o.id == oid))
    ∧ (∀ (qd : QuizData) (qid oid : String) (q1 : EditorQuestion),
        q1 ∈ (setCorrectOption qid oid qd).questions → q1.id = qid →
        q1.options.countP (fun o => o.id == oid) = 1 →
        (q1.options.filter (fun o => o.isCorrect)).length = 1)
    ∧ (∀ (qd : QuizData) (qid oid : String) (q1 : EditorQuestion),
        q1 ∈ (setCorrectOption qid oid qd).questions → q1.id ≠ qid →
        q1 ∈ qd.questions)
    ∧ (∀ (qd : QuizData) (q : EditorQuestion),
        q ∈ qd.questions → (q.options.filter (fun o => o.isCorrect)).length = 0 →
        validateQuiz qd = false) := by
  have partA : ∀ (qd : QuizData) (qid oid : String) (q1 : EditorQuestion),
      q1 ∈ (setCorrectOption qid oid qd).questions → q1.id = qid →
      ∀ o ∈ q1.options, o.isCorrect = (o.id == oid) := by
    intro qd qid oid q1 hmem hid o ho
    unfold setCorrectOption at hmem
    simp only [List.mem_map] at hmem
    obtain ⟨q0, hq0, hfq⟩ := hmem
    cases hb : q0.id == qid
    · rw [if_neg (show ¬((q0.id == qid) = true) from by simp [hb])] at hfq
      subst hfq
      exact absurd (beq_iff_eq.mpr hid) (by simp [hb])
    · rw [if_pos hb] at hfq
      subst hfq
      simp only [List.mem_map] at ho
      obtain ⟨o0, ho0, hgo⟩ := ho
      rw [← hgo]
  refine ⟨partA, ?_, ?_, ?_⟩
  · intro qd qid oid q1 hmem hid hcount
    have hfe : q1.options.filter (fun o => o.isCorrect)
        = q1.options.filter (fun o => o.id == oid) :=
      List.filter_congr (fun o ho => partA qd qid oid q1 hmem hid o ho)
    rw [hfe, ← List.countP_eq_length_filter]
    exact hcount
  · intro qd qid oid q1 hmem hne
    unfold setCorrectOption at hmem
    simp only [List.mem_map] at hmem
    obtain ⟨q0, hq0, hfq⟩ := hmem
    cases hb : q0.id == qid
    · rw [if_neg (show ¬((q0.id == qid) = true) from by simp [hb])] at hfq
      rw [← hfq]
      exact hq0
    · rw [if_pos hb] at hfq
      have hcontra : q1.id = qid := by
        rw [← hfq]
        exact beq_iff_eq.mp hb
      exact absurd hcontra hne
  · intro qd q hq hzero
    have hvq : validQuestion q = false := by
      unfold validQuestion
      simp [hzero]
    have hall : qd.questions.all validQuestion = false :=
      List.all_eq_false.mpr ⟨q, hq, by simp [hvq]⟩
    simp [validateQuiz, hall]

/-- C9 witness: instantiating the amended statement — choosing option `b` in a
two-option question leaves exactly one correct option, and a quiz whose only
question has zero correct options fails validation. -/
theorem c9_witness :
    (correctedQuestion.options.filter (fun o => o.isCorrect)).length = 1
    ∧ validateQuiz zeroCorrectQuiz = false := by
  constructor
  · exact c9_correct_option_invariant.2.1 zeroCorrectQuiz "q1" "b"
      correctedQuestion (by decide) (by decide) (by decide)
  · exact c9_correct_option_invariant.2.2.2 zeroCorrectQuiz
      zeroCorrectQuestion (by decide) (by decide)

/-- C9 counterexample: the claim that a quiz in which some question has more
than one correct option is rejected by validation is false — a question with
two correct options passes `validateQuiz`. -/
theorem c9_counterexample :
    validateQuiz twoCorrectQuiz = true
    ∧ ((twoCorrectQuiz.questions.map
        (fun q => (q.options.filter (fun o => o.isCorrect)).length)) = [2])
    ∧ (2 : Nat) ≠ 1 := by
  refine ⟨by decide, by decide, by decide⟩

theorem startTimer_valid (questionIndex : Int) (seconds : Option Int)
    (s : HostState) (q : Question)
    (h : (if questionIndex < 0 then none else s.questions[questionIndex.toNat]?)
      = some q) :
    startTimer questionIndex seconds s
      = { s with
            timeLeft := seconds
            showResults := false
            answerStats := freshStats questionIndex q
            totalAnswers := 0
            timerArmed := true } := by
  unfold startTimer
  rw [h]

theorem startTimer_invalid (questionIndex : Int) (seconds : Option Int)
    (s : HostState)
    (h : (if questionIndex < 0 then none else s.questions[questionIndex.toNat]?)
      = none) :
    startTimer questionIndex seconds s = { s with timerArmed := false } := by
  unfold startTimer
  rw [h]

theorem startTimer_fields (questionIndex : Int) (seconds : Option Int)
    (s : HostState) :
    (startTimer questionIndex seconds s).currentQuestionIndex
        = s.currentQuestionIndex
    ∧ (startTimer questionIndex seconds s).dbCurrentQuestionIndex
        = s.dbCurrentQuestionIndex
    ∧ (startTimer questionIndex seconds s).dbStatus = s.dbStatus
    ∧ (startTimer questionIndex seconds s).gameEnded = s.gameEnded
    ∧ (startTimer questionIndex seconds s).questions = s.questions := by
  unfold startTimer
  rcases (if questionIndex < 0 then none else s.questions[questionIndex.toNat]?)
    with _ | q
  · exact ⟨rfl, rfl, rfl, rfl, rfl⟩
  · exact ⟨rfl, rfl, rfl, rfl, rfl⟩

theorem tick_iterate (e : Nat) : ∀ (s : HostState) (t : Int),
    s.timerArmed = true → s.timeLeft = some t → (e : Int) < t →
    (timerTick^[e] s).timeLeft = some (t - e) := by
  induction e with
  | zero =>
    intro s t _ h _
    simpa using h
  | succ e ih =>
    intro s t harm htl hlt
    rw [Function.iterate_succ_apply]
    have hstep : timerTick s = { s with timeLeft := some (t - 1) } := by
      unfold timerTick
      rw [if_pos harm]
      simp only [htl]
      rw [if_neg (show ¬(t - 1 ≤ 0) by omega)]
    rw [hstep]
    have hres := ih { s with timeLeft := some (t - 1) } (t - 1) harm rfl (by omega)
    rw [hres]
    have harith : t - 1 - (e : Int) = t - ((e + 1 : Nat) : Int) := by
      push_cast
      ring
    rw [harith]

/-- C2 (amended): the per-question timer is a relative tick counter, not an
absolute deadline: `startTimer` initializes `timeLeft` to the full passed
`seconds` value and every interval firing decrements it by one, so after `e`
ticks the displayed remaining time is `seconds - e`; no persisted
`question_started_at` exists. On a host restart mid-question, `fetchGameData`
calls `startTimer` with the question's `time_limit` as the question-index
argument and no seconds argument, so whenever `time_limit` is at least the
number of questions the question lookup fails: no timer is armed and
`timeLeft` keeps its initial value instead of the uninterrupted remaining
time. -/
theorem c2_relative_tick_timer :
    (∀ (s : HostState) (questionIndex secs : Int) (q : Question),
      (if questionIndex < 0 then none else s.questions[questionIndex.toNat]?)
        = some q →
      ∀ e : Nat, (e : Int) < secs →
      (timerTick^[e] (startTimer questionIndex (some secs) s)).timeLeft
        = some (secs - e))
    ∧ (∀ (s : HostState) (i : Int) (q : Question),
      s.dbCurrentQuestionIndex = some i →
      0 ≤ i → i < (s.questions.length : Int) →
      s.questions[i.toNat]? = some q →
      (s.questions.length : Int) ≤ q.time_limit →
      (fetchGameDataResume s).timerArmed = false
      ∧ (fetchGameDataResume s).timeLeft = s.timeLeft) := by
  constructor
  · intro s qi secs q hq e hlt
    rw [startTimer_valid qi (some secs) s q hq]
    exact tick_iterate e _ secs rfl rfl hlt
  · intro s i q hdb h0 hlen hget htl
    have hred : fetchGameDataResume s
        = startTimer q.time_limit none { s with currentQuestionIndex := i } := by
      unfold fetchGameDataResume
      simp only [hdb]
      rw [if_pos ⟨h0, hlen⟩]
      simp only [hget]
    have hnone : (if q.time_limit < 0 then none
        else s.questions[q.time_limit.toNat]?) = (none : Option Question) := by
      rw [if_neg (show ¬(q.time_limit < 0) by omega)]
      apply List.getElem?_eq_none
      omega
    rw [hred, startTimer_invalid q.time_limit none
      { s with currentQuestionIndex := i } hnone]
    exact ⟨rfl, rfl⟩

/-- C2 witness: for the one-question 30-second fixture, an uninterrupted run
shows 20 seconds left after 10 ticks, while the restart path arms no timer and
leaves the initial `timeLeft` untouched. -/
theorem c2_witness :
    (timerTick^[10] (startTimer 0 (some 30) restartState)).timeLeft = some 20
    ∧ (fetchGameDataResume restartState).timerArmed = false
    ∧ (fetchGameDataResume restartState).timeLeft = restartState.timeLeft := by
  have hrun := c2_relative_tick_timer.1 restartState 0 30 timedQuestion
    (by decide) 10 (by decide)
  have hresume := c2_relative_tick_timer.2 restartState 0 timedQuestion
    rfl (by decide) (by decide) rfl (by decide)
  refine ⟨?_, hresume.1, hresume.2⟩
  rw [hrun]
  norm_num

/-- C2 counterexample: the claim that after a host restart the timer
recomputed from the persisted state yields the same remaining time (within one
tick) as an uninterrupted run is false on the concrete fixture — mid-question
at 20 seconds remaining, the restarted host shows 0 seconds and arms no
countdown, a 20-second discrepancy. -/
theorem c2_counterexample :
    (fetchGameDataResume restartState).timeLeft = some 0
    ∧ (fetchGameDataResume restartState).timerArmed = false
    ∧ (timerTick^[10] (startTimer 0 (some 30) restartState)).timeLeft = some 20
    ∧ ¬((20 : Int) - 0 ≤ 1) := by
  refine ⟨by decide, by decide, by decide, by decide⟩

theorem nextQuestion_advance (s : HostState)
    (h0 : 0 ≤ s.currentQuestionIndex + 1)
    (hlt : s.currentQuestionIndex + 1 < (s.questions.length : Int)) :
    (nextQuestion s).currentQuestionIndex = s.currentQuestionIndex + 1
    ∧ (nextQuestion s).dbCurrentQuestionIndex = some (s.currentQuestionIndex + 1)
    ∧ (nextQuestion s).dbStatus = s.dbStatus
    ∧ (nextQuestion s).gameEnded = s.gameEnded
    ∧ (nextQuestion s).questions = s.questions := by
  have hlt2 : (s.currentQuestionIndex + 1).toNat < s.questions.length := by omega
  have hred : nextQuestion s
      = startTimer (s.currentQuestionIndex + 1)
          (some (s.questions[(s.currentQuestionIndex + 1).toNat].time_limit))
          { s with
              timerArmed := false
              dbCurrentQuestionIndex := some (s.currentQuestionIndex + 1)
              showResults := false
              timeLeft := some 0
              currentQuestionIndex := s.currentQuestionIndex + 1 } := by
    unfold nextQuestion
    rw [if_neg (not_le.mpr hlt),
      if_neg (show ¬(s.currentQuestionIndex + 1 < 0) by omega),
      List.getElem?_eq_getElem hlt2]
  rw [hred]
  obtain ⟨h1, h2, h3, h4, h5⟩ := startTimer_fields (s.currentQuestionIndex + 1)
    (some (s.questions[(s.currentQuestionIndex + 1).toNat].time_limit))
    { s with
        timerArmed := false
        dbCurrentQuestionIndex := some (s.currentQuestionIndex + 1)
        showResults := false
        timeLeft := some 0
        currentQuestionIndex := s.currentQuestionIndex + 1 }
  rw [h1, h2, h3, h4, h5]
  exact ⟨rfl, rfl, rfl, rfl, rfl⟩

theorem nextQuestion_complete (s : HostState)
    (h : (s.questions.length : Int) ≤ s.currentQuestionIndex + 1) :
    nextQuestion s
      = { s with
            timerArmed := false
            dbStatus := "completed"
            dbCurrentQuestionIndex := none
            gameEnded := true } := by
  unfold nextQuestion
  rw [if_pos h]

/-- C3 (amended): the host's `advance` handler (`nextQuestion`) performs no
state-machine check and can never fail with a `StateError`: every call
unconditionally advances — from index `i` it moves the component index and the
session row to `i + 1` whenever `i + 1` is a valid question index, and marks
the session completed (null index, game over) otherwise. In particular two
successive calls with two questions remaining advance `current_question_index`
twice, not once. -/
theorem c3_advance_is_unchecked (s : HostState) :
    (0 ≤ s.currentQuestionIndex + 1 →
      s.currentQuestionIndex + 1 < (s.questions.length : Int) →
      (nextQuestion s).currentQuestionIndex = s.currentQuestionIndex + 1
      ∧ (nextQuestion s).dbCurrentQuestionIndex = some (s.currentQuestionIndex + 1)
      ∧ (nextQuestion s).dbStatus = s.dbStatus
      ∧ (nextQuestion s).gameEnded = s.gameEnded)
    ∧ ((s.questions.length : Int) ≤ s.currentQuestionIndex + 1 →
      (nextQuestion s).gameEnded = true
      ∧ (nextQuestion s).dbStatus = "completed"
      ∧ (nextQuestion s).dbCurrentQuestionIndex = none
      ∧ (nextQuestion s).currentQuestionIndex = s.currentQuestionIndex)
    ∧ (0 ≤ s.currentQuestionIndex →
      s.currentQuestionIndex + 2 < (s.questions.length : Int) →
      (nextQuestion (nextQuestion s)).currentQuestionIndex
        = s.currentQuestionIndex + 2) := by
  refine ⟨?_, ?_, ?_⟩
  · intro h0 hlt
    have h := nextQuestion_advance s h0 hlt
    exact ⟨h.1, h.2.1, h.2.2.1, h.2.2.2.1⟩
  · intro h
    rw [nextQuestion_complete s h]
    exact ⟨rfl, rfl, rfl, rfl⟩
  · intro h0 hlt2
    have ha := nextQuestion_advance s (by omega) (by omega)
    have h1 := ha.1
    have h5 := ha.2.2.2.2
    have hb := nextQuestion_advance (nextQuestion s)
      (by rw [h1]; omega) (by rw [h1, h5]; omega)
    rw [hb.1, h1]
    omega

/-- C3 witness: instantiating the amended statement on the three-question
fixture — the first `advance` moves to index 1 and the immediate second call
moves on to index 2. -/
theorem c3_witness :
    (nextQuestion threeQuestionState).currentQuestionIndex = 1
    ∧ (nextQuestion (nextQuestion threeQuestionState)).currentQuestionIndex = 2 := by
  constructor
  · have h := (c3_advance_is_unchecked threeQuestionState).1 (by decide) (by decide)
    simpa using h.1
  · have h := (c3_advance_is_unchecked threeQuestionState).2.2 (by decide) (by decide)
    simpa using h

/-- C3 counterexample: the claim that the second of two back-to-back `advance`
calls fails with `StateError` leaving `current_question_index` changed exactly
once is false — on the three-question fixture both calls succeed and the index
moves from 0 to 1 and then to 2. -/
theorem c3_counterexample :
    (nextQuestion threeQuestionState).currentQuestionIndex = 1
    ∧ (nextQuestion (nextQuestion threeQuestionState)).currentQuestionIndex = 2
    ∧ ((2 : Int) ≠ 1) := by
  refine ⟨by decide, by decide, by decide⟩

/-- C5 (amended): the stale-index guard of the broadcast consumer holds — an
`answer_submitted` event whose `question_index` differs from the current one
leaves the host's tally state completely unchanged — but consumption of an
event for the current question is not idempotent: every delivery increments
`totalAnswers` by one and, when the option key is known, the matching option
counter by one, so a duplicated delivery double-counts (until a periodic
database refresh overwrites the tally). -/
theorem c5_broadcast_stale_guard_not_idempotent (s : HostState) (evIdx : Int)
    (evOpt : String) :
    (evIdx ≠ s.currentQuestionIndex → handleAnswerBroadcast evIdx evOpt s = s)
    ∧ (evIdx = s.currentQuestionIndex →
        (handleAnswerBroadcast evIdx evOpt s).totalAnswers = s.totalAnswers + 1
        ∧ statGet (handleAnswerBroadcast evIdx evOpt s).answerStats
            (uniqueKey evIdx evOpt)
          = (if statHas s.answerStats (uniqueKey evIdx evOpt) then
              statGet s.answerStats (uniqueKey evIdx evOpt) + 1
            else statGet s.answerStats (uniqueKey evIdx evOpt))) := by
  constructor
  · intro h
    unfold handleAnswerBroadcast
    rw [if_neg (show ¬((evIdx == s.currentQuestionIndex) = true) from by
      simpa using h)]
  · intro h
    unfold handleAnswerBroadcast
    rw [if_pos (show (evIdx == s.currentQuestionIndex) = true from by
      simpa using h)]
    refine ⟨rfl, ?_⟩
    rw [statGet_statBump]
    simp

/-- C5 witness: instantiating the amended statement — a stale event for
question 7 leaves the live tally state unchanged, and a current-question event
increments the total and the known option counter `q0_o1`. -/
theorem c5_witness :
    handleAnswerBroadcast 7 "o1" liveTallyState = liveTallyState
    ∧ (handleAnswerBroadcast 0 "o1" liveTallyState).totalAnswers
        = liveTallyState.totalAnswers + 1
    ∧ statGet (handleAnswerBroadcast 0 "o1" liveTallyState).answerStats
        (uniqueKey 0 "o1")
      = (if statHas liveTallyState.answerStats (uniqueKey 0 "o1") then
          statGet liveTallyState.answerStats (uniqueKey 0 "o1") + 1
        else statGet liveTallyState.answerStats (uniqueKey 0 "o1")) := by
  have hstale :=
    (c5_broadcast_stale_guard_not_idempotent liveTallyState 7 "o1").1 (by decide)
  have hlive :=
    (c5_broadcast_stale_guard_not_idempotent liveTallyState 0 "o1").2 rfl
  exact ⟨hstale, hlive.1, hlive.2⟩

/-- C5 counterexample: the claim that applying the same delivered
`answer_submitted` event twice produces the same tally state as applying it
once is false — two deliveries of the event for option `o1` of the current
question count two answers (and an option count of 2) where one delivery
counts one. -/
theorem c5_counterexample :
    (handleAnswerBroadcast 0 "o1" (handleAnswerBroadcast 0 "o1"
        liveTallyState)).totalAnswers = 2
    ∧ (handleAnswerBroadcast 0 "o1" liveTallyState).totalAnswers = 1
    ∧ statGet (handleAnswerBroadcast 0 "o1" (handleAnswerBroadcast 0 "o1"
        liveTallyState)).answerStats "q0_o1" = 2
    ∧ statGet (handleAnswerBroadcast 0 "o1" liveTallyState).answerStats "q0_o1" = 1
    ∧ ((2 : Nat) ≠ 1) := by
  refine ⟨by decide, by decide, by decide, by decide, by decide⟩

theorem refreshAnswerStats_spec (questions : List Question) (questionIndex : Int)
    (rows : List AnswerRow) (t : Tally)
    (h : refreshAnswerStats questions questionIndex rows = some t) :
    ∀ q : Question,
    (if questionIndex < 0 then none else questions[questionIndex.toNat]?) = some q →
    t.total = (rows.filter (fun r => r.question_index == questionIndex)).length
    ∧ statsSum t.counts
        = (rows.filter (fun r => r.question_index == questionIndex)).countP
            (fun r => statHas (freshStats questionIndex q)
              (uniqueKey questionIndex r.option_id)) := by
  intro q hq
  unfold refreshAnswerStats at h
  rw [hq] at h
  have ht := Option.some.inj h
  subst ht
  refine ⟨rfl, ?_⟩
  have hsum := statsSum_foldBump
    (rows.filter (fun r => r.question_index == questionIndex))
    (fun r => uniqueKey questionIndex r.option_id)
    (freshStats questionIndex q)
    (nodupKeys_freshStats questionIndex q)
  have hzero : statsSum (freshStats questionIndex q) = 0 :=
    statsSum_eq_zero_of_zeroVals _ (zeroVals_freshStats questionIndex q)
  rw [hsum, hzero] at *
  simp

/-- C4 (amended): for every set of stored answer rows, the tally built by
`refreshAnswerStats` satisfies `sum(counts) ≤ total`, with equality whenever
every stored row for the question carries an `option_id` belonging to the
question (a foreign `option_id` is counted in `total` but in no option
counter); and `total` equals the number of stored rows for that
`question_index`, which is at most the number of players provided the rows
contain at most one row per player and only players of the session. -/
theorem c4_tally_invariant (questions : List Question) (questionIndex : Int)
    (rows : List AnswerRow) (players : List Player) (q : Question) (t : Tally)
    (hq : (if questionIndex < 0 then none else questions[questionIndex.toNat]?)
      = some q)
    (h : refreshAnswerStats questions questionIndex rows = some t) :
    (statsSum t.counts ≤ t.total)
    ∧ ((∀ r ∈ rows, r.question_index = questionIndex →
          r.option_id ∈ q.options.map (fun o => o.id)) →
        statsSum t.counts = t.total)
    ∧ (((rows.filter (fun r => r.question_index == questionIndex)).map
          (fun r => r.player_id)).Nodup →
        (∀ r ∈ rows, r.question_index = questionIndex →
          r.player_id ∈ players.map (fun p => p.id)) →
        t.total ≤ players.length) := by
  obtain ⟨htot, hsum⟩ := refreshAnswerStats_spec questions questionIndex rows t h q hq
  refine ⟨?_, ?_, ?_⟩
  · rw [hsum, htot]
    exact List.countP_le_length _
  · intro hvalid
    rw [hsum, htot]
    rw [List.countP_eq_length]
    intro r hr
    rw [List.mem_filter] at hr
    have hmem := hvalid r hr.1 (by simpa using hr.2)
    rw [List.mem_map] at hmem
    obtain ⟨o, ho, hoid⟩ := hmem
    rw [statHas_freshStats, List.any_eq_true]
    refine ⟨o, ho, ?_⟩
    rw [← hoid]
    exact beq_self_eq_true _
  · intro hnd hplayers
    rw [htot]
    have hsub : (rows.filter (fun r => r.question_index == questionIndex)).map
        (fun r => r.player_id) ⊆ players.map (fun p => p.id) := by
      intro x hx
      rw [List.mem_map] at hx
      obtain ⟨r, hr, hxid⟩ := hx
      rw [List.mem_filter] at hr
      rw [← hxid]
      exact hplayers r hr.1 (by simpa using hr.2)
    have hlen := (List.Nodup.subperm hnd hsub).length_le
    rw [List.length_map, List.length_map] at hlen
    exact hlen

/-- C4 witness: instantiating the amended statement on a one-row, one-player
session — the tally for question 0 has `sum(counts) = total = 1 ≤ 1` player. -/
theorem c4_witness :
    statsSum (Tally.counts ⟨[("q0_o1", 1), ("q0_o2", 0)], 1⟩) ≤ 1
    ∧ statsSum (Tally.counts ⟨[("q0_o1", 1), ("q0_o2", 0)], 1⟩) = 1
    ∧ (1 : Nat) ≤ 1 := by
  have h := c4_tally_invariant [questionOne] 0 [answerRowO1]
    [{ id := "p1", name := "Ann", score := 0, totalCompletionTime := 0 }]
    questionOne ⟨[("q0_o1", 1), ("q0_o2", 0)], 1⟩ (by decide) (by decide)
  exact ⟨h.1, h.2.1 (by decide), h.2.2 (by decide) (by decide)⟩

/-- C4 counterexample: the claim that `sum(tally.counts.values()) ==
tally.total` holds for every possible set of stored rows — including rows
whose `option_id` does not belong to the question — is false: a single stored
row with foreign option id `zzz` yields counts summing to 0 but `total = 1`. -/
theorem c4_counterexample :
    (refreshAnswerStats [questionOne] 0 [foreignRow]).map
        (fun t => (statsSum t.counts, t.total)) = some (0, 1)
    ∧ ((0 : Nat) ≠ 1) := by
  refine ⟨by decide, by decide⟩

/-- C6: the percentage rendered for an option equals
`round(100 * count / total)` for a positive total, a zero total yields 0% for
every option with no division performed, and a question with no stored answer
rows produces a tally with `total = 0`, every option counter 0, and a rendered
percentage of 0% for every key. -/
theorem c6_display_percentage (c t0 : Nat) (ht : 0 < t0) :
    displayPercentage c t0 = round ((100 * (c : ℚ)) / (t0 : ℚ))
    ∧ (∀ c1 : Nat, displayPercentage c1 0 = 0)
    ∧ (∀ (questions : List Question) (questionIndex : Int) (tal : Tally),
        refreshAnswerStats questions questionIndex [] = some tal →
        tal.total = 0
        ∧ (∀ p ∈ tal.counts, p.2 = 0)
        ∧ (∀ key : String, displayPercentage (statGet tal.counts key) tal.total
            = 0)) := by
  refine ⟨?_, ?_, ?_⟩
  · unfold displayPercentage
    rw [if_pos ht]
    have harith : ((c : ℚ) / (t0 : ℚ)) * 100 = (100 * (c : ℚ)) / (t0 : ℚ) := by
      ring
    rw [harith]
  · intro c1
    simp [displayPercentage]
  · intro questions questionIndex tal h
    unfold refreshAnswerStats at h
    rcases hq : (if questionIndex < 0 then none
        else questions[questionIndex.toNat]?) with _ | q
    · rw [hq] at h
      exact absurd h (by simp)
    · rw [hq] at h
      simp only [List.filter_nil, List.foldl_nil, List.length_nil] at h
      have htal := Option.some.inj h
      subst htal
      refine ⟨rfl, zeroVals_freshStats questionIndex q, ?_⟩
      intro key
      simp [displayPercentage]

/-- C6 witness: instantiating the statement — one of three answers displays
`round(100/3) = 33`, any count over a zero total displays 0, and the empty-row
tally for question 0 has total 0 with option `o1` rendered at 0%. -/
theorem c6_witness :
    displayPercentage 1 3 = round ((100 * (1 : ℚ)) / (3 : ℚ))
    ∧ displayPercentage 7 0 = 0
    ∧ Tally.total ⟨freshStats 0 questionOne, 0⟩ = 0
    ∧ displayPercentage
        (statGet (Tally.counts ⟨freshStats 0 questionOne, 0⟩) (uniqueKey 0 "o1"))
        (Tally.total ⟨freshStats 0 questionOne, 0⟩) = 0 := by
  have h := c6_display_percentage 1 3 (by decide)
  have h3 := h.2.2 [questionOne] 0 ⟨freshStats 0 questionOne, 0⟩ (by decide)
  exact ⟨h.1, h.2.1 7, h3.1, h3.2.2 (uniqueKey 0 "o1")⟩

theorem leaderboardLE_iff (a b : Player) :
    leaderboardLE a b = true
      ↔ (b.score < a.score
          ∨ (a.score = b.score
              ∧ a.totalCompletionTime ≤ b.totalCompletionTime)) := by
  unfold leaderboardLE
  by_cases h : a.score = b.score
  · simp [h, lt_irrefl]
  · simp [h]

theorem leaderboardLE_trans (a b c : Player) (hab : leaderboardLE a b = true)
    (hbc : leaderboardLE b c = true) : leaderboardLE a c = true := by
  rw [leaderboardLE_iff] at *
  omega

theorem leaderboardLE_total (a b : Player) :
    (leaderboardLE a b || leaderboardLE b a) = true := by
  rw [Bool.or_eq_true, leaderboardLE_iff, leaderboardLE_iff]
  omega

theorem statGet_foldTimes (rows : List AnswerRow) : ∀ (acc : Stats) (pid : String),
    statGet (rows.foldl (fun acc r =>
        statSet acc r.player_id (statGet acc r.player_id + r.time_taken)) acc) pid
      = statGet acc pid
        + ((rows.filter (fun r => r.player_id == pid)).map
            (fun r => r.time_taken)).sum := by
  induction rows with
  | nil =>
    intro acc pid
    simp
  | cons r rows ih =>
    intro acc pid
    rw [List.foldl_cons, ih, statGet_statSet]
    cases hb : pid == r.player_id
    · rw [if_neg (show ¬(false = true) from by simp)]
      have hfil : (r.player_id == pid) = false := by
        rw [stringBeq_symm]
        exact hb
      simp [List.filter_cons, hfil]
    · rw [if_pos (show (true = true) from rfl)]
      have heq := beq_iff_eq.mp hb
      have hfil : (r.player_id == pid) = true := by
        rw [stringBeq_symm]
        exact hb
      simp [List.filter_cons, hfil, heq]
      omega

/-- C7: on every leaderboard the displayed order is the stable sort of the
player list by score descending with ties broken by ascending total completion
time: the sorted list is a permutation of the players, consecutive entries
satisfy the score-then-time order, a pair tied on both keys keeps its prior
relative order, and each player's `totalCompletionTime` is the sum of the
`time_taken` values of that player's answer rows. -/
theorem c7_leaderboard_order :
    (∀ ps : List Player, (finalLeaderboard ps).Perm ps)
    ∧ (∀ ps : List Player, (finalLeaderboard ps).Pairwise
        (fun a b => b.score < a.score
          ∨ (a.score = b.score
              ∧ a.totalCompletionTime ≤ b.totalCompletionTime)))
    ∧ (∀ (ps : List Player) (a b : Player),
        a.score = b.score → a.totalCompletionTime = b.totalCompletionTime →
        [a, b].Sublist ps → [a, b].Sublist (finalLeaderboard ps))
    ∧ (∀ (rows : List AnswerRow) (players : List Player) (p : Player),
        p ∈ calculatePlayerCompletionTimes rows players →
        p.totalCompletionTime
          = ((rows.filter (fun r => r.player_id == p.id)).map
              (fun r => r.time_taken)).sum) := by
  refine ⟨?_, ?_, ?_, ?_⟩
  · intro ps
    exact List.mergeSort_perm ps leaderboardLE
  · intro ps
    have hs := List.sorted_mergeSort leaderboardLE_trans leaderboardLE_total ps
    exact hs.imp (fun h => (leaderboardLE_iff _ _).mp h)
  · intro ps a b hsc htime hsub
    exact List.pair_sublist_mergeSort leaderboardLE_trans leaderboardLE_total
      ((leaderboardLE_iff a b).mpr (Or.inr ⟨hsc, le_of_eq htime⟩)) hsub
  · intro rows players p hp
    unfold calculatePlayerCompletionTimes at hp
    rw [List.mem_map] at hp
    obtain ⟨p0, hp0, hmk⟩ := hp
    rw [← hmk]
    have h := statGet_foldTimes rows [] p0.id
    simpa [playerCompletionTimes, statGet] using h

/-- C7 witness: instantiating the statement — the fully tied pair `Ann, Bob`
keeps its order in the sorted leaderboard, the sorted list is a permutation of
the players, and `Ann`'s completion time equals the 3 + 4 seconds of her two
answer rows. -/
theorem c7_witness :
    [tiedAnn, tiedBob].Sublist (finalLeaderboard [tiedAnn, tiedBob])
    ∧ (finalLeaderboard [tiedAnn, tiedBob]).Perm [tiedAnn, tiedBob]
    ∧ tiedAnn.totalCompletionTime
        = ((completionRows.filter (fun r => r.player_id == tiedAnn.id)).map
            (fun r => r.time_taken)).sum := by
  refine ⟨c7_leaderboard_order.2.2.1 [tiedAnn, tiedBob] tiedAnn tiedBob rfl rfl
      (List.Sublist.refl _),
    c7_leaderboard_order.1 [tiedAnn, tiedBob],
    c7_leaderboard_order.2.2.2 completionRows [tiedAnn] tiedAnn (by decide)⟩

/-- C10: while per-question results are shown, the on-screen leaderboard is
exactly the first five entries of the sorted order — it has `min 5 n` entries,
entry `i` agrees with entry `i` of the full sorted order for `i < 5` and is
absent for `i ≥ 5` — whereas the game-over screen lists the full sorted
order, a permutation of all players. -/
theorem c10_midgame_top_five :
    (∀ ps : List Player, (midGameLeaderboard ps).length = min 5 ps.length)
    ∧ (∀ (ps : List Player) (i : Nat),
        (midGameLeaderboard ps)[i]?
          = if i < 5 then (finalLeaderboard ps)[i]? else none)
    ∧ (∀ ps : List Player,
        (finalLeaderboard ps).Perm ps
        ∧ (finalLeaderboard ps).length = ps.length) := by
  refine ⟨?_, ?_, ?_⟩
  · intro ps
    unfold midGameLeaderboard
    rw [List.length_take, (List.mergeSort_perm ps leaderboardLE).length_eq]
  · intro ps i
    unfold midGameLeaderboard finalLeaderboard
    rw [List.getElem?_take]
  · intro ps
    exact ⟨List.mergeSort_perm ps leaderboardLE,
      (List.mergeSort_perm ps leaderboardLE).length_eq⟩
